import Mathlib

/-!
Shallow embedding of `parse_txnlog.py`, an offline decoder for ZooKeeper
transaction log files, together with proofs of the behavioural properties
of its decoding layer.

Modelling conventions:
* a byte stream is a `List Nat` of byte values (file bytes are `< 256`;
  every multi-byte integer in the wire format is big-endian);
* Python's `struct.unpack` raising `struct.error` on a short buffer or a
  malformed format, the `EOS` end-of-stream exception, and the
  `UnknownType` exception are all modelled by `Except Err`;
* machine integers are `Nat`/`Int` with explicit reduction modulo `2 ^ w`
  where the width matters.
-/

/-- A byte stream: the bytes of the log file not yet consumed. -/
abbrev Bytes := List Nat

/-- Big-endian value of a byte list (each entry reduced to a byte). -/
def beNat (l : Bytes) : Nat := l.foldl (fun a b => a * 256 + b % 256) 0

/-- Two's-complement reinterpretation of `v` as a signed `w`-bit integer. -/
def toSigned (w : Nat) (v : Nat) : Int :=
  if v % 2 ^ w < 2 ^ (w - 1) then ((v % 2 ^ w : Nat) : Int)
  else ((v % 2 ^ w : Nat) : Int) - 2 ^ w

/-- Value of a big-endian byte list as a signed 32-bit integer
(Python format character `i`). -/
def int32OfBytes (l : Bytes) : Int := toSigned 32 (beNat l)

/-- Value of a big-endian byte list as a signed 64-bit integer
(Python format character `q`). -/
def int64OfBytes (l : Bytes) : Int := toSigned 64 (beNat l)

/-- Model of Python `file.read(n)`: it returns at most `n` bytes — all
remaining bytes when `n` is negative — and never fails; a short read near
the end of the file silently returns fewer bytes than requested. -/
def pyRead (n : Int) (l : Bytes) : Bytes × Bytes :=
  if n < 0 then (l, []) else (l.take n.toNat, l.drop n.toNat)

/-- Terminal conditions of the decoder. `truncated` stands for Python's
`struct.error` (raised by `unpack` on a buffer shorter than the format
size, and by a negative length spliced into a `str(_len) + 's'` format);
`eos` is the `EOS` exception raised on a zero-length frame; `unknownType`
is the `UnknownType` exception carrying the unrecognised opcode;
`invalidHeader` is the driver's rejection of a bad file magic. -/
inductive Err where
  | truncated
  | eos
  | unknownType (t : Int)
  | invalidHeader
  deriving DecidableEq, Repr

/-- Model of `log.read(s.size)` followed by `s.unpack(...)` for a format of
fixed size `n`: `unpack` raises `struct.error` when fewer than `n` bytes
were available. -/
def readUnpack (n : Nat) (l : Bytes) : Except Err (Bytes × Bytes) :=
  if n ≤ l.length then .ok (l.take n, l.drop n) else .error .truncated

/-- Model of `TxnEntry.readInt`: unpack format `>i`, 4 bytes, big-endian,
two's-complement. -/
def readInt (l : Bytes) : Except Err (Int × Bytes) := do
  let (bs, r) ← readUnpack 4 l
  .ok (int32OfBytes bs, r)

/-- Equality between a Python tuple (of integers) and a Python integer.
In Python, `(b,) == 0` is `False` for every `b`: a tuple never compares
equal to an int. The source's `readBool` performs exactly this comparison
because it omits the 1-tuple destructuring that `readInt` does. -/
def pyTupleIntEq (_t : List Int) (_n : Int) : Bool := false

/-- Model of `TxnEntry.readBool`: unpack format `B` (1 byte), then compare
the resulting 1-tuple — not the byte — with `0`. -/
def readBool (l : Bytes) : Except Err (Bool × Bytes) := do
  let (bs, r) ← readUnpack 1 l
  .ok (pyTupleIntEq (bs.map Int.ofNat) 0, r)

/-- Model of `TxnEntry.readString`: read an `int32` length `n`, then unpack
format `str(n) + 's'`. A negative `n` makes the format malformed
(`struct.error`), and fewer than `n` available bytes make `unpack` fail;
otherwise exactly `n` bytes are consumed. The Python function returns the
unpacked 1-tuple `(bytes,)`; we represent that 1-tuple by the bytes. -/
def readString (l : Bytes) : Except Err (Bytes × Bytes) := do
  let (n, r) ← readInt l
  if n < 0 then .error .truncated
  else if n.toNat ≤ r.length then .ok (r.take n.toNat, r.drop n.toNat)
  else .error .truncated

/-- Model of `TxnEntry.readData`: read an `int32` length `n`, then
`log.read(n)` with no unpack — so a negative `n` returns all remaining
bytes, and an overlong `n` silently returns only what remains. -/
def readData (l : Bytes) : Except Err (Bytes × Bytes) := do
  let (n, r) ← readInt l
  .ok (pyRead n r)

/-- An access-control entry, as decoded by class `Acl`. -/
structure Acl where
  perms : Int
  scheme : Bytes
  id : Bytes
  deriving DecidableEq, Repr

/-- Model of `Acl.__init__`: permissions, scheme, identity, in that order. -/
def Acl.init (l : Bytes) : Except Err (Acl × Bytes) := do
  let (perms, r1) ← readInt l
  let (scheme, r2) ← readString r1
  let (ident, r3) ← readString r2
  .ok ({ perms := perms, scheme := scheme, id := ident }, r3)

/-- Decode exactly `k` ACL entries in order. -/
def readAclsAux : Nat → Bytes → Except Err (List Acl × Bytes)
  | 0, l => .ok ([], l)
  | k + 1, l => do
    let (a, r) ← Acl.init l
    let (rest, r2) ← readAclsAux k r
    .ok (a :: rest, r2)

/-- Model of `TxnEntry.readAcls`: read an `int32` count, then decode that
many ACL entries. Python's `xrange(count)` is empty for a negative count,
which `Int.toNat` captures (negative becomes `0`). -/
def readAcls (l : Bytes) : Except Err (List Acl × Bytes) := do
  let (count, r) ← readInt l
  readAclsAux count.toNat r

/-! Opcode constants and the opcode registry (module-level in the source). -/

def SESSIONCLOSE : Int := -11

def SESSIONCREATE : Int := -10

def ERROR : Int := -1

def NOTIFICATION : Int := 0

def CREATE : Int := 1

def DELETE : Int := 2

def EXISTS : Int := 3

def GETDATA : Int := 4

def SETDATA : Int := 5

def GETACL : Int := 6

def SETACL : Int := 7

def GETCHILDREN : Int := 8

def SYNC : Int := 9

def PING : Int := 11

def GETCHILDREN2 : Int := 12

def CHECK : Int := 13

def MULTI : Int := 14

def AUTH : Int := 100

def SETWATCHES : Int := 101

def SASL : Int := 102

/-- Model of the module-level `opcodes` dict: a closed mapping from signed
integer opcode to symbolic name, represented as an association list. -/
def opcodes : List (Int × String) :=
  [(SESSIONCLOSE, "sessionclose"),
   (SESSIONCREATE, "sessioncreate"),
   (ERROR, "error"),
   (NOTIFICATION, "notification"),
   (CREATE, "create"),
   (DELETE, "delete"),
   (EXISTS, "exists"),
   (GETDATA, "getdata"),
   (SETDATA, "setdata"),
   (GETACL, "getacl"),
   (SETACL, "setacl"),
   (GETCHILDREN, "getchildren"),
   (SYNC, "sync"),
   (PING, "ping"),
   (GETCHILDREN2, "getchildren2"),
   (CHECK, "check"),
   (MULTI, "multi"),
   (AUTH, "auth"),
   (SETWATCHES, "setwatches"),
   (SASL, "sasl")]

/-- Dict lookup `opcodes[type]` (`TxnHeader.op2type`): `none` models the
`KeyError` a Python dict raises on a missing key. -/
def resolveOpcode (n : Int) : Option String := opcodes.lookup n

/-! Error-code constants and the error registry (class attributes of
`TxnError` in the source). -/

def TxnError.Ok : Int := 0

def TxnError.SystemError : Int := -1

def TxnError.RuntimeInconsistency : Int := -2

def TxnError.DataInconsistency : Int := -3

def TxnError.ConnectionLoss : Int := -4

def TxnError.MarshallingError : Int := -5

def TxnError.Unimplemented : Int := -6

def TxnError.OperationTimeout : Int := -7

def TxnError.BadArguments : Int := -8

def TxnError.APIError : Int := -100

def TxnError.NoNode : Int := -101

def TxnError.NoAuth : Int := -102

def TxnError.BadVersion : Int := -103

def TxnError.NoChildrenForEphemerals : Int := -108

def TxnError.NodeExists : Int := -110

def TxnError.NotEmpty : Int := -111

def TxnError.SessionExpired : Int := -112

def TxnError.InvalidCallback : Int := -113

def TxnError.InvalidACL : Int := -114

def TxnError.AuthFailed : Int := -115

def TxnError.SessionMoved : Int := -118

/-- Model of the `TxnError.errorcodes` dict: a closed mapping from signed
integer error code to symbolic name. -/
def TxnError.errorcodes : List (Int × String) :=
  [(TxnError.Ok, "ok"),
   (TxnError.SystemError, "systemerror"),
   (TxnError.RuntimeInconsistency, "runtimeinconsistency"),
   (TxnError.DataInconsistency, "datainconsistency"),
   (TxnError.ConnectionLoss, "connectionloss"),
   (TxnError.MarshallingError, "marshallingerror"),
   (TxnError.Unimplemented, "unimplemented"),
   (TxnError.OperationTimeout, "operationtimeout"),
   (TxnError.BadArguments, "badarguments"),
   (TxnError.APIError, "apierror"),
   (TxnError.NoNode, "nonode"),
   (TxnError.NoAuth, "noauth"),
   (TxnError.BadVersion, "badversion"),
   (TxnError.NoChildrenForEphemerals, "nochildrenforephemerals"),
   (TxnError.NodeExists, "nodeexists"),
   (TxnError.NotEmpty, "notempty"),
   (TxnError.SessionExpired, "sessionexpired"),
   (TxnError.InvalidCallback, "invalidcallback"),
   (TxnError.InvalidACL, "invalidacl"),
   (TxnError.AuthFailed, "authfailed"),
   (TxnError.SessionMoved, "sessionmoved")]

/-- Dict lookup `errorcodes[err]` (used by `TxnError.__str__`): `none` models
the `KeyError` on a missing key. -/
def resolveErrorCode (n : Int) : Option String := TxnError.errorcodes.lookup n

/-- The fixed per-record transaction header, as decoded by `TxnHeader`.
The unpack format is `>Q I Q Q i`: all fields big-endian; `client_id`,
`zxid` and `time` unsigned 64-bit, `cxid` unsigned 32-bit, `type` (the
opcode) signed 32-bit — 32 bytes in total. -/
structure TxnHeader where
  client_id : Nat
  cxid : Nat
  zxid : Nat
  time : Nat
  type : Int
  deriving DecidableEq, Repr

/-- Model of `TxnHeader.__init__`. -/
def TxnHeader.init (l : Bytes) : Except Err (TxnHeader × Bytes) := do
  let (bs, r) ← readUnpack 32 l
  .ok ({ client_id := beNat (bs.take 8),
         cxid := beNat ((bs.drop 8).take 4),
         zxid := beNat ((bs.drop 12).take 8),
         time := beNat ((bs.drop 20).take 8),
         type := int32OfBytes (bs.drop 28) }, r)

/-- The decoded payload: a closed variant keyed by opcode, one constructor
per `TxnEntry` subclass with a defined payload decoder. -/
inductive TxnEntry where
  | create (path : Bytes) (data : Bytes) (acls : List Acl) (ephemeral : Bool)
  | delete (path : Bytes)
  | setData (path : Bytes) (data : Bytes) (version : Int)
  | setAcl (path : Bytes) (acls : List Acl) (version : Int)
  | sessionCreate (timeout : Int)
  | sessionClose
  | error (err : Int)
  deriving DecidableEq, Repr

/-- Model of `TxnCreate.__init__`: path, data, acls, ephemeral. -/
def TxnCreate.init (l : Bytes) : Except Err (TxnEntry × Bytes) := do
  let (path, r1) ← readString l
  let (data, r2) ← readData r1
  let (acls, r3) ← readAcls r2
  let (eph, r4) ← readBool r3
  .ok (.create path data acls eph, r4)

/-- Model of `TxnDelete.__init__`: path only. -/
def TxnDelete.init (l : Bytes) : Except Err (TxnEntry × Bytes) := do
  let (path, r1) ← readString l
  .ok (.delete path, r1)

/-- Model of `TxnSetData.__init__`: path, data, version. -/
def TxnSetData.init (l : Bytes) : Except Err (TxnEntry × Bytes) := do
  let (path, r1) ← readString l
  let (data, r2) ← readData r1
  let (version, r3) ← readInt r2
  .ok (.setData path data version, r3)

/-- Model of `TxnSetAcl.__init__`: path, acls, version. -/
def TxnSetAcl.init (l : Bytes) : Except Err (TxnEntry × Bytes) := do
  let (path, r1) ← readString l
  let (acls, r2) ← readAcls r1
  let (version, r3) ← readInt r2
  .ok (.setAcl path acls version, r3)

/-- Model of `TxnSessionCreate.__init__`: timeout only. -/
def TxnSessionCreate.init (l : Bytes) : Except Err (TxnEntry × Bytes) := do
  let (timeout, r1) ← readInt l
  .ok (.sessionCreate timeout, r1)

/-- Model of `TxnSessionClose.__init__`: no fields, no bytes consumed. -/
def TxnSessionClose.init (l : Bytes) : Except Err (TxnEntry × Bytes) :=
  .ok (.sessionClose, l)

/-- Model of `TxnError.__init__`: the error code only. -/
def TxnError.init (l : Bytes) : Except Err (TxnEntry × Bytes) := do
  let (err, r1) ← readInt l
  .ok (.error err, r1)

/-- The opcode dispatch chain of `Txn.__init__`: run the payload decoder
named after the opcode, or raise `UnknownType` carrying the opcode. The
order of the tests mirrors the source's `if`/`elif` chain. -/
def dispatch (t : Int) (l : Bytes) : Except Err (TxnEntry × Bytes) :=
  if t = CREATE then TxnCreate.init l
  else if t = DELETE then TxnDelete.init l
  else if t = SETDATA then TxnSetData.init l
  else if t = SETACL then TxnSetAcl.init l
  else if t = SESSIONCREATE then TxnSessionCreate.init l
  else if t = SESSIONCLOSE then TxnSessionClose.init l
  else if t = ERROR then TxnError.init l
  else .error (.unknownType t)

/-- One decoded transaction record, as built by `Txn.__init__`. -/
structure Txn where
  crc : Int
  txn_len : Int
  header : TxnHeader
  entry : TxnEntry
  deriving DecidableEq, Repr

/-- Model of `Txn.__init__`: unpack the `>q i` frame (int64 checksum,
int32 length); raise `EOS` when the length is exactly zero; otherwise
decode the header, dispatch on its opcode, and finally `log.read(1)` for
the end-of-record delimiter — a plain `read`, so the delimiter byte's
value is ignored and its absence at end of file is not an error. -/
def Txn.init (l : Bytes) : Except Err (Txn × Bytes) := do
  let (bs, r) ← readUnpack 12 l
  let crc := int64OfBytes (bs.take 8)
  let len := int32OfBytes (bs.drop 8)
  if len = 0 then .error .eos
  else do
    let (h, r1) ← TxnHeader.init r
    let (e, r2) ← dispatch h.type r1
    let (_eor, r3) := pyRead 1 r2
    .ok ({ crc := crc, txn_len := len, header := h, entry := e }, r3)

/-- The decoded log file header, as built by `LogFileHeader.__init__`:
unpack format `>i i q` (magic signed 32-bit, version signed 32-bit, dbid
signed 64-bit, all big-endian). -/
structure LogFileHeader where
  magic : Int
  version : Int
  dbid : Int
  deriving DecidableEq, Repr

/-- The expected magic: `int(hexlify(pack('4s', 'ZKLG')), 16)`, i.e. the
four ASCII bytes of `"ZKLG"` read as one big-endian integer. -/
def LogFileHeader.MAGIC : Int := Int.ofNat (beNat ("ZKLG".toList.map Char.toNat))

/-- Model of `LogFileHeader.__init__`. -/
def LogFileHeader.init (l : Bytes) : Except Err (LogFileHeader × Bytes) := do
  let (bs, r) ← readUnpack 16 l
  .ok ({ magic := int32OfBytes (bs.take 4),
         version := int32OfBytes ((bs.drop 4).take 4),
         dbid := int64OfBytes (bs.drop 8) }, r)

/-- Model of `LogFileHeader.isvalid`. -/
def LogFileHeader.isvalid (h : LogFileHeader) : Bool := h.magic = LogFileHeader.MAGIC

/-- Model of the driver's record loop: construct `Txn` records one after
another, collecting them in file order, until an exception terminates the
loop; the terminal condition is returned with the records decoded before
it. `fuel` bounds the iteration count (the Python loop is unbounded);
`none` means the fuel ran out before a terminal condition was reached. -/
def parseAll (fuel : Nat) (l : Bytes) : Option (List Txn × Err) :=
  match fuel with
  | 0 => none
  | fuel + 1 =>
    match Txn.init l with
    | .error e => some ([], e)
    | .ok (t, r) =>
      match parseAll fuel r with
      | none => none
      | some (ts, e) => some (t :: ts, e)

/-- Model of the `__main__` driver: decode the log file header first,
reject the whole file (`parser.error`) when the magic is invalid, and only
otherwise enter the record loop. -/
def runFile (fuel : Nat) (l : Bytes) : Except Err (Option (List Txn × Err)) := do
  let (h, r) ← LogFileHeader.init l
  if h.isvalid then .ok (parseAll fuel r) else .error .invalidHeader

/-- Modelled from the spec: the repository contains no encoder (the tool is
decode-only), so the byte producer needed to state encode-then-decode
properties is taken from the wire format of spec §6. `encBE w v` is the
`w`-byte big-endian encoding of `v` reduced modulo `2 ^ (8 * w)`. -/
def encBE (w : Nat) (v : Int) : Bytes :=
  (List.range w).map fun i => (v % ((2 ^ (8 * w) : Nat) : Int)).toNat / 256 ^ (w - 1 - i) % 256

/-- Modelled from the spec: a 4-byte big-endian `int32`. -/
def encInt32 (v : Int) : Bytes := encBE 4 v

/-- Modelled from the spec: an 8-byte big-endian `int64`. -/
def encInt64 (v : Int) : Bytes := encBE 8 v

/-- Modelled from the spec: `string/blob := len:i32 bytes[len]` — an `int32`
byte count followed by exactly that many raw bytes. -/
def encString (s : Bytes) : Bytes := encInt32 s.length ++ s.map (· % 256)

/-- Modelled from the spec: the boolean convention of §4.1 preserved from
the source — a zero byte stands for `true`, a nonzero byte for `false`. -/
def encBool (b : Bool) : Bytes := [if b then 0 else 1]

/-- Modelled from the spec: `Acl := perms:i32 scheme:string identity:string`. -/
def encAcl (a : Acl) : Bytes := encInt32 a.perms ++ encString a.scheme ++ encString a.id

/-- Modelled from the spec: `AclList := count:i32 Acl[count]`. -/
def encAclList (as : List Acl) : Bytes := encInt32 as.length ++ (as.map encAcl).flatten

/-- Modelled from the spec: `TxnHeader := clientId:u64 cxid:u32 zxid:u64
time:i64 opcode:i32`, all big-endian — 32 bytes. -/
def encHeader (h : TxnHeader) : Bytes :=
  encBE 8 h.client_id ++ encBE 4 h.cxid ++ encBE 8 h.zxid ++ encBE 8 h.time ++ encInt32 h.type

/-- Modelled from the spec: the payload field sequences of the table in
§4.4, one per variant, in the listed order. -/
def encEntry : TxnEntry → Bytes
  | .create path data acls eph => encString path ++ encString data ++ encAclList acls ++ encBool eph
  | .delete path => encString path
  | .setData path data version => encString path ++ encString data ++ encInt32 version
  | .setAcl path acls version => encString path ++ encAclList acls ++ encInt32 version
  | .sessionCreate timeout => encInt32 timeout
  | .sessionClose => []
  | .error err => encInt32 err

/-- Modelled from the spec: one framed record — `checksum:i64 length:i32`
followed by header, opcode-selected payload and one delimiter byte, with
`length` the byte count of header + payload + delimiter. -/
def encTxn (crc : Int) (h : TxnHeader) (e : TxnEntry) (delim : Nat) : Bytes :=
  let body := encHeader h ++ encEntry e ++ [delim % 256]
  encInt64 crc ++ encInt32 body.length ++ body

/-- Modelled from the spec: the zero-length terminator frame that ends a
log file — a checksum followed by a length of exactly zero. -/
def endFrame (crc : Int) : Bytes := encInt64 crc ++ encInt32 0

/-- The header record decoded from a 32-byte slice `b`: the field-by-field
reading of `TxnHeader.__init__` on its unpacked buffer. -/
def headerOfBytes (b : Bytes) : TxnHeader :=
  { client_id := beNat (b.take 8),
    cxid := beNat ((b.drop 8).take 4),
    zxid := beNat ((b.drop 12).take 8),
    time := beNat ((b.drop 20).take 8),
    type := int32OfBytes (b.drop 28) }

/-- The tail of `Txn.__init__` after the opcode dispatch: package the
decoded entry with the frame and header fields and consume the delimiter
via `log.read(1)`. -/
def finishRecord (crc len : Int) (h : TxnHeader) (x : Except Err (TxnEntry × Bytes)) :
    Except Err (Txn × Bytes) :=
  x >>= fun er =>
    .ok ({ crc := crc, txn_len := len, header := h, entry := er.1 }, (pyRead 1 er.2).2)

/-- The header-plus-payload segment of `Txn.__init__`: everything strictly
between the frame and the trailing delimiter byte. -/
def decodeBody (r : Bytes) : Except Err ((TxnHeader × TxnEntry) × Bytes) := do
  let (h, r1) ← TxnHeader.init r
  let (e, r2) ← dispatch h.type r1
  .ok ((h, e), r2)

/-- Agreement of two record-decode outcomes in everything except the stored
checksum: the same terminal condition, or success with identical length,
header, payload and unconsumed tail. -/
def sameButCrc : Except Err (Txn × Bytes) → Except Err (Txn × Bytes) → Prop
  | .error e1, .error e2 => e1 = e2
  | .ok (t1, r1), .ok (t2, r2) =>
      t1.txn_len = t2.txn_len ∧ t1.header = t2.header ∧ t1.entry = t2.entry ∧ r1 = r2
  | _, _ => False

/-! Positioning and extension lemmas for the primitive decoders. -/

theorem ok_bind {α β : Type} (a : α) (f : α → Except Err β) :
    (Except.ok a >>= f) = f a := rfl

theorem error_bind {α β : Type} (e : Err) (f : α → Except Err β) :
    ((Except.error e : Except Err α) >>= f) = .error e := rfl

theorem readUnpack_append {n : Nat} {b : Bytes} (rest : Bytes) (hb : b.length = n) :
    readUnpack n (b ++ rest) = .ok (b, rest) := by
  subst hb
  simp [readUnpack, List.take_left, List.drop_left]

theorem readInt_append {b : Bytes} (rest : Bytes) (hb : b.length = 4) :
    readInt (b ++ rest) = .ok (int32OfBytes b, rest) := by
  unfold readInt
  rw [readUnpack_append rest hb, ok_bind]

theorem readUnpack_ext {n : Nat} {l z a r : Bytes}
    (h : readUnpack n l = .ok (a, r)) : readUnpack n (l ++ z) = .ok (a, r ++ z) := by
  by_cases hle : n ≤ l.length
  · simp only [readUnpack, if_pos hle, Except.ok.injEq, Prod.mk.injEq] at h
    obtain ⟨ha, hr⟩ := h
    subst ha
    subst hr
    have hle2 : n ≤ (l ++ z).length := by
      simp only [List.length_append]
      omega
    simp [readUnpack, hle2, List.take_append_of_le_length hle,
          List.drop_append_of_le_length hle]
    omega
  · simp [readUnpack, hle] at h

theorem readInt_ext {l z r : Bytes} {v : Int}
    (h : readInt l = .ok (v, r)) : readInt (l ++ z) = .ok (v, r ++ z) := by
  unfold readInt at h ⊢
  cases hu : readUnpack 4 l with
  | error e => rw [hu, error_bind] at h; cases h
  | ok p =>
    obtain ⟨bs, r0⟩ := p
    rw [hu, ok_bind] at h
    injection h with h'
    rw [readUnpack_ext hu, ok_bind]
    simp only [Prod.mk.injEq] at h'
    simp [h'.1, h'.2]

theorem readInt_ok_length {l r : Bytes} {v : Int}
    (h : readInt l = .ok (v, r)) : 4 ≤ l.length := by
  unfold readInt at h
  by_cases hle : 4 ≤ l.length
  · exact hle
  · rw [readUnpack, if_neg hle, error_bind] at h
    cases h

theorem readBool_ext {l z r : Bytes} {v : Bool}
    (h : readBool l = .ok (v, r)) : readBool (l ++ z) = .ok (v, r ++ z) := by
  unfold readBool at h ⊢
  cases hu : readUnpack 1 l with
  | error e => rw [hu, error_bind] at h; cases h
  | ok p =>
    obtain ⟨bs, r0⟩ := p
    rw [hu, ok_bind] at h
    injection h with h'
    rw [readUnpack_ext hu, ok_bind]
    simp only [Prod.mk.injEq] at h'
    simp [h'.1, h'.2]

theorem readString_ext {l z s r : Bytes}
    (h : readString l = .ok (s, r)) : readString (l ++ z) = .ok (s, r ++ z) := by
  unfold readString at h ⊢
  cases hi : readInt l with
  | error e => rw [hi, error_bind] at h; cases h
  | ok p =>
    obtain ⟨n, r0⟩ := p
    rw [hi, ok_bind] at h
    rw [readInt_ext hi, ok_bind]
    dsimp only at h ⊢
    by_cases hn : n < 0
    · simp [hn] at h
    · by_cases hle : n.toNat ≤ r0.length
      · simp only [if_neg hn, if_pos hle, Except.ok.injEq, Prod.mk.injEq] at h
        obtain ⟨hs, hr⟩ := h
        have hle2 : n.toNat ≤ (r0 ++ z).length := by
          simp only [List.length_append]
          omega
        rw [if_neg hn, if_pos hle2, List.take_append_of_le_length hle,
            List.drop_append_of_le_length hle, hs, hr]
      · simp [hn, hle] at h

theorem readData_ext {l z d r : Bytes}
    (h : readData l = .ok (d, r)) (hr : r ≠ []) :
    readData (l ++ z) = .ok (d, r ++ z) := by
  unfold readData at h ⊢
  cases hi : readInt l with
  | error e => rw [hi, error_bind] at h; cases h
  | ok p =>
    obtain ⟨n, r0⟩ := p
    rw [hi, ok_bind] at h
    rw [readInt_ext hi, ok_bind]
    unfold pyRead at h ⊢
    by_cases hn : n < 0
    · simp only [if_pos hn, Except.ok.injEq, Prod.mk.injEq] at h
      exact absurd h.2.symm hr
    · simp only [if_neg hn, Except.ok.injEq, Prod.mk.injEq] at h
      obtain ⟨hd, hr0⟩ := h
      have hlt : n.toNat < r0.length := by
        rcases Nat.lt_or_ge n.toNat r0.length with hc | hc
        · exact hc
        · rw [← hr0] at hr
          exact absurd (List.drop_eq_nil_of_le hc) hr
      have hle : n.toNat ≤ r0.length := Nat.le_of_lt hlt
      simp [if_neg hn, ← hd, ← hr0,
            List.take_append_of_le_length hle, List.drop_append_of_le_length hle]

theorem aclInit_ext {l z r : Bytes} {a : Acl}
    (h : Acl.init l = .ok (a, r)) : Acl.init (l ++ z) = .ok (a, r ++ z) := by
  unfold Acl.init at h ⊢
  cases h1 : readInt l with
  | error e => rw [h1, error_bind] at h; cases h
  | ok p1 =>
    obtain ⟨perms, r1⟩ := p1
    rw [h1, ok_bind] at h
    rw [readInt_ext h1, ok_bind]
    dsimp only at h ⊢
    cases h2 : readString r1 with
    | error e => rw [h2, error_bind] at h; cases h
    | ok p2 =>
      obtain ⟨scheme, r2⟩ := p2
      rw [h2, ok_bind] at h
      rw [readString_ext h2, ok_bind]
      dsimp only at h ⊢
      cases h3 : readString r2 with
      | error e => rw [h3, error_bind] at h; cases h
      | ok p3 =>
        obtain ⟨ident, r3⟩ := p3
        rw [h3, ok_bind] at h
        rw [readString_ext h3, ok_bind]
        dsimp only at h ⊢
        injection h with h'
        simp only [Prod.mk.injEq] at h'
        simp [h'.1, h'.2]

theorem readAclsAux_ext {k : Nat} {l z r : Bytes} {as : List Acl}
    (h : readAclsAux k l = .ok (as, r)) : readAclsAux k (l ++ z) = .ok (as, r ++ z) := by
  induction k generalizing l as r with
  | zero =>
    unfold readAclsAux at h ⊢
    injection h with h'
    simp only [Prod.mk.injEq] at h'
    simp [h'.1, h'.2]
  | succ k ih =>
    unfold readAclsAux at h ⊢
    cases h1 : Acl.init l with
    | error e => rw [h1, error_bind] at h; cases h
    | ok p1 =>
      obtain ⟨a, r1⟩ := p1
      rw [h1, ok_bind] at h
      rw [aclInit_ext h1, ok_bind]
      dsimp only at h ⊢
      cases h2 : readAclsAux k r1 with
      | error e => rw [h2, error_bind] at h; cases h
      | ok p2 =>
        obtain ⟨rest, r2⟩ := p2
        rw [h2, ok_bind] at h
        rw [ih h2, ok_bind]
        dsimp only at h ⊢
        injection h with h'
        simp only [Prod.mk.injEq] at h'
        simp [h'.1, h'.2]

theorem readAcls_ext {l z r : Bytes} {as : List Acl}
    (h : readAcls l = .ok (as, r)) : readAcls (l ++ z) = .ok (as, r ++ z) := by
  unfold readAcls at h ⊢
  cases h1 : readInt l with
  | error e => rw [h1, error_bind] at h; cases h
  | ok p1 =>
    obtain ⟨count, r1⟩ := p1
    rw [h1, ok_bind] at h
    rw [readInt_ext h1, ok_bind]
    dsimp only at h ⊢
    exact readAclsAux_ext h

theorem readAcls_ok_length {l r : Bytes} {as : List Acl}
    (h : readAcls l = .ok (as, r)) : 4 ≤ l.length := by
  unfold readAcls at h
  cases h1 : readInt l with
  | error e => rw [h1, error_bind] at h; cases h
  | ok p1 => exact readInt_ok_length h1

theorem txnHeaderInit_ext {l z r : Bytes} {h : TxnHeader}
    (he : TxnHeader.init l = .ok (h, r)) : TxnHeader.init (l ++ z) = .ok (h, r ++ z) := by
  unfold TxnHeader.init at he ⊢
  cases hu : readUnpack 32 l with
  | error e => rw [hu, error_bind] at he; cases he
  | ok p =>
    obtain ⟨bs, r0⟩ := p
    rw [hu, ok_bind] at he
    rw [readUnpack_ext hu, ok_bind]
    dsimp only at he ⊢
    injection he with he'
    simp only [Prod.mk.injEq] at he'
    simp [he'.1, he'.2]

theorem txnCreateInit_ext {l z r : Bytes} {e : TxnEntry}
    (h : TxnCreate.init l = .ok (e, r)) : TxnCreate.init (l ++ z) = .ok (e, r ++ z) := by
  unfold TxnCreate.init at h ⊢
  cases h1 : readString l with
  | error e1 => rw [h1, error_bind] at h; cases h
  | ok p1 =>
    obtain ⟨path, r1⟩ := p1
    rw [h1, ok_bind] at h
    rw [readString_ext h1, ok_bind]
    dsimp only at h ⊢
    cases h2 : readData r1 with
    | error e2 => rw [h2, error_bind] at h; cases h
    | ok p2 =>
      obtain ⟨data, r2⟩ := p2
      rw [h2, ok_bind] at h
      dsimp only at h
      cases h3 : readAcls r2 with
      | error e3 => rw [h3, error_bind] at h; cases h
      | ok p3 =>
        obtain ⟨acls, r3⟩ := p3
        have hr2 : r2 ≠ [] := by
          have hlen := readAcls_ok_length h3
          intro hnil
          rw [hnil] at hlen
          simp at hlen
        rw [readData_ext h2 hr2, ok_bind]
        dsimp only
        rw [h3, ok_bind] at h
        rw [readAcls_ext h3, ok_bind]
        dsimp only at h ⊢
        cases h4 : readBool r3 with
        | error e4 => rw [h4, error_bind] at h; cases h
        | ok p4 =>
          obtain ⟨eph, r4⟩ := p4
          rw [h4, ok_bind] at h
          rw [readBool_ext h4, ok_bind]
          dsimp only at h ⊢
          injection h with h'
          simp only [Prod.mk.injEq] at h'
          simp [h'.1, h'.2]

theorem txnDeleteInit_ext {l z r : Bytes} {e : TxnEntry}
    (h : TxnDelete.init l = .ok (e, r)) : TxnDelete.init (l ++ z) = .ok (e, r ++ z) := by
  unfold TxnDelete.init at h ⊢
  cases h1 : readString l with
  | error e1 => rw [h1, error_bind] at h; cases h
  | ok p1 =>
    obtain ⟨path, r1⟩ := p1
    rw [h1, ok_bind] at h
    rw [readString_ext h1, ok_bind]
    dsimp only at h ⊢
    injection h with h'
    simp only [Prod.mk.injEq] at h'
    simp [h'.1, h'.2]

theorem txnSetDataInit_ext {l z r : Bytes} {e : TxnEntry}
    (h : TxnSetData.init l = .ok (e, r)) : TxnSetData.init (l ++ z) = .ok (e, r ++ z) := by
  unfold TxnSetData.init at h ⊢
  cases h1 : readString l with
  | error e1 => rw [h1, error_bind] at h; cases h
  | ok p1 =>
    obtain ⟨path, r1⟩ := p1
    rw [h1, ok_bind] at h
    rw [readString_ext h1, ok_bind]
    dsimp only at h ⊢
    cases h2 : readData r1 with
    | error e2 => rw [h2, error_bind] at h; cases h
    | ok p2 =>
      obtain ⟨data, r2⟩ := p2
      rw [h2, ok_bind] at h
      dsimp only at h
      cases h3 : readInt r2 with
      | error e3 => rw [h3, error_bind] at h; cases h
      | ok p3 =>
        obtain ⟨version, r3⟩ := p3
        have hr2 : r2 ≠ [] := by
          have hlen := readInt_ok_length h3
          intro hnil
          rw [hnil] at hlen
          simp at hlen
        rw [readData_ext h2 hr2, ok_bind]
        dsimp only
        rw [h3, ok_bind] at h
        rw [readInt_ext h3, ok_bind]
        dsimp only at h ⊢
        injection h with h'
        simp only [Prod.mk.injEq] at h'
        simp [h'.1, h'.2]

theorem TxnSetaclInit_ext {l z r : Bytes} {e : TxnEntry}
    (h : TxnSetAcl.init l = .ok (e, r)) : TxnSetAcl.init (l ++ z) = .ok (e, r ++ z) := by
  unfold TxnSetAcl.init at h ⊢
  cases h1 : readString l with
  | error e1 => rw [h1, error_bind] at h; cases h
  | ok p1 =>
    obtain ⟨path, r1⟩ := p1
    rw [h1, ok_bind] at h
    rw [readString_ext h1, ok_bind]
    dsimp only at h ⊢
    cases h2 : readAcls r1 with
    | error e2 => rw [h2, error_bind] at h; cases h
    | ok p2 =>
      obtain ⟨acls, r2⟩ := p2
      rw [h2, ok_bind] at h
      rw [readAcls_ext h2, ok_bind]
      dsimp only at h ⊢
      cases h3 : readInt r2 with
      | error e3 => rw [h3, error_bind] at h; cases h
      | ok p3 =>
        obtain ⟨version, r3⟩ := p3
        rw [h3, ok_bind] at h
        rw [readInt_ext h3, ok_bind]
        dsimp only at h ⊢
        injection h with h'
        simp only [Prod.mk.injEq] at h'
        simp [h'.1, h'.2]

theorem txnSessionCreateInit_ext {l z r : Bytes} {e : TxnEntry}
    (h : TxnSessionCreate.init l = .ok (e, r)) :
    TxnSessionCreate.init (l ++ z) = .ok (e, r ++ z) := by
  unfold TxnSessionCreate.init at h ⊢
  cases h1 : readInt l with
  | error e1 => rw [h1, error_bind] at h; cases h
  | ok p1 =>
    obtain ⟨timeout, r1⟩ := p1
    rw [h1, ok_bind] at h
    rw [readInt_ext h1, ok_bind]
    dsimp only at h ⊢
    injection h with h'
    simp only [Prod.mk.injEq] at h'
    simp [h'.1, h'.2]

theorem txnSessionCloseInit_ext {l z r : Bytes} {e : TxnEntry}
    (h : TxnSessionClose.init l = .ok (e, r)) :
    TxnSessionClose.init (l ++ z) = .ok (e, r ++ z) := by
  unfold TxnSessionClose.init at h ⊢
  injection h with h'
  simp only [Prod.mk.injEq] at h'
  simp [h'.1, h'.2]

theorem txnErrorInit_ext {l z r : Bytes} {e : TxnEntry}
    (h : TxnError.init l = .ok (e, r)) : TxnError.init (l ++ z) = .ok (e, r ++ z) := by
  unfold TxnError.init at h ⊢
  cases h1 : readInt l with
  | error e1 => rw [h1, error_bind] at h; cases h
  | ok p1 =>
    obtain ⟨err, r1⟩ := p1
    rw [h1, ok_bind] at h
    rw [readInt_ext h1, ok_bind]
    dsimp only at h ⊢
    injection h with h'
    simp only [Prod.mk.injEq] at h'
    simp [h'.1, h'.2]

theorem dispatch_ext {t : Int} {l z r : Bytes} {e : TxnEntry}
    (h : dispatch t l = .ok (e, r)) : dispatch t (l ++ z) = .ok (e, r ++ z) := by
  unfold dispatch at h ⊢
  by_cases h1 : t = CREATE
  · rw [if_pos h1] at h ⊢
    exact txnCreateInit_ext h
  · rw [if_neg h1] at h ⊢
    by_cases h2 : t = DELETE
    · rw [if_pos h2] at h ⊢
      exact txnDeleteInit_ext h
    · rw [if_neg h2] at h ⊢
      by_cases h3 : t = SETDATA
      · rw [if_pos h3] at h ⊢
        exact txnSetDataInit_ext h
      · rw [if_neg h3] at h ⊢
        by_cases h4 : t = SETACL
        · rw [if_pos h4] at h ⊢
          exact TxnSetaclInit_ext h
        · rw [if_neg h4] at h ⊢
          by_cases h5 : t = SESSIONCREATE
          · rw [if_pos h5] at h ⊢
            exact txnSessionCreateInit_ext h
          · rw [if_neg h5] at h ⊢
            by_cases h6 : t = SESSIONCLOSE
            · rw [if_pos h6] at h ⊢
              exact txnSessionCloseInit_ext h
            · rw [if_neg h6] at h ⊢
              by_cases h7 : t = ERROR
              · rw [if_pos h7] at h ⊢
                exact txnErrorInit_ext h
              · rw [if_neg h7] at h
                cases h

theorem decodeBody_ext {m z r : Bytes} {p : TxnHeader × TxnEntry}
    (h : decodeBody m = .ok (p, r)) : decodeBody (m ++ z) = .ok (p, r ++ z) := by
  unfold decodeBody at h ⊢
  cases h1 : TxnHeader.init m with
  | error e1 => rw [h1, error_bind] at h; cases h
  | ok q =>
    obtain ⟨hh, r1⟩ := q
    rw [h1, ok_bind] at h
    rw [txnHeaderInit_ext h1, ok_bind]
    dsimp only at h ⊢
    cases h2 : dispatch hh.type r1 with
    | error e2 => rw [h2, error_bind] at h; cases h
    | ok q2 =>
      obtain ⟨e, r2⟩ := q2
      rw [h2, ok_bind] at h
      rw [dispatch_ext h2, ok_bind]
      dsimp only at h ⊢
      injection h with h'
      simp only [Prod.mk.injEq] at h'
      simp [h'.1, h'.2]

theorem txnHeaderInit_append {b : Bytes} (rest : Bytes) (hb : b.length = 32) :
    TxnHeader.init (b ++ rest) = .ok (headerOfBytes b, rest) := by
  unfold TxnHeader.init headerOfBytes
  rw [readUnpack_append rest hb, ok_bind]

theorem txnInit_short {l : Bytes} (h : l.length < 12) : Txn.init l = .error .truncated := by
  unfold Txn.init
  rw [readUnpack, if_neg (by omega), error_bind]

theorem txnInit_eq {c L : Bytes} (rest : Bytes) (hc : c.length = 8) (hL : L.length = 4) :
    Txn.init (c ++ L ++ rest) =
      if int32OfBytes L = 0 then .error .eos
      else (TxnHeader.init rest) >>= fun hr =>
        finishRecord (int64OfBytes c) (int32OfBytes L) hr.1 (dispatch hr.1.type hr.2) := by
  have h12 : (c ++ L).length = 12 := by
    simp [hc, hL]
  unfold Txn.init
  rw [readUnpack_append rest h12, ok_bind]
  dsimp only
  rw [List.take_left' hc, List.drop_left' hc]
  by_cases hz : int32OfBytes L = 0
  · rw [if_pos hz, if_pos hz]
  · rw [if_neg hz, if_neg hz]
    cases hh : TxnHeader.init rest with
    | error e => rfl
    | ok p =>
      obtain ⟨h, r1⟩ := p
      rw [ok_bind, ok_bind]
      dsimp only
      cases hd : dispatch h.type r1 with
      | error e => rfl
      | ok q =>
        obtain ⟨e, r2⟩ := q
        rw [ok_bind]
        unfold finishRecord
        rw [ok_bind]

theorem txnTail_of_decodeBody {crc len : Int} {r r2 : Bytes} {h : TxnHeader} {e : TxnEntry}
    (hb : decodeBody r = .ok ((h, e), r2)) :
    ((TxnHeader.init r) >>= fun hr =>
        finishRecord crc len hr.1 (dispatch hr.1.type hr.2)) =
      .ok ({ crc := crc, txn_len := len, header := h, entry := e }, (pyRead 1 r2).2) := by
  unfold decodeBody at hb
  cases h1 : TxnHeader.init r with
  | error e1 => rw [h1, error_bind] at hb; cases hb
  | ok q =>
    obtain ⟨hh, r1⟩ := q
    rw [h1, ok_bind] at hb
    dsimp only at hb
    cases h2 : dispatch hh.type r1 with
    | error e2 => rw [h2, error_bind] at hb; cases hb
    | ok q2 =>
      obtain ⟨ee, rr2⟩ := q2
      rw [h2, ok_bind] at hb
      dsimp only at hb
      injection hb with hb'
      simp only [Prod.mk.injEq] at hb'
      obtain ⟨⟨hhh, hee⟩, hrr⟩ := hb'
      rw [ok_bind]
      dsimp only
      unfold finishRecord
      rw [h2, ok_bind]
      dsimp only
      rw [hhh, hee, hrr]

theorem finishRecord_sameButCrc (crc1 crc2 len : Int) (h : TxnHeader)
    (x : Except Err (TxnEntry × Bytes)) :
    sameButCrc (finishRecord crc1 len h x) (finishRecord crc2 len h x) := by
  cases x with
  | error e => exact rfl
  | ok p =>
    obtain ⟨e, r⟩ := p
    exact ⟨rfl, rfl, rfl, rfl⟩

theorem lookup_isSome_iff (tbl : List (Int × String)) (n : Int) :
    (tbl.lookup n).isSome = true ↔ n ∈ tbl.map Prod.fst := by
  induction tbl with
  | nil => simp [List.lookup]
  | cons p rest ih =>
    obtain ⟨k, v⟩ := p
    by_cases hk : n = k
    · subst hk
      simp [List.lookup]
    · have hbeq : (n == k) = false := by
        simp [hk]
      simp only [List.lookup, hbeq, List.map_cons, List.mem_cons]
      rw [ih]
      tauto

theorem dispatch_unknown {t : Int} (l : Bytes)
    (h : t ∉ ([CREATE, DELETE, SETDATA, SETACL, SESSIONCREATE, SESSIONCLOSE, ERROR] :
      List Int)) :
    dispatch t l = .error (.unknownType t) := by
  simp only [List.mem_cons, List.not_mem_nil, or_false, not_or] at h
  obtain ⟨n1, n2, n3, n4, n5, n6, n7⟩ := h
  unfold dispatch
  rw [if_neg n1, if_neg n2, if_neg n3, if_neg n4, if_neg n5, if_neg n6, if_neg n7]

theorem txnInit_record {c L hb : Bytes} (rest : Bytes) (hc : c.length = 8)
    (hL : L.length = 4) (hh : hb.length = 32) (hnz : int32OfBytes L ≠ 0) :
    Txn.init (c ++ L ++ hb ++ rest) =
      finishRecord (int64OfBytes c) (int32OfBytes L) (headerOfBytes hb)
        (dispatch (headerOfBytes hb).type rest) := by
  have hassoc : c ++ L ++ hb ++ rest = c ++ L ++ (hb ++ rest) := by
    rw [List.append_assoc (c ++ L)]
  rw [hassoc, txnInit_eq (hb ++ rest) hc hL, if_neg hnz,
      txnHeaderInit_append rest hh, ok_bind]

theorem txnInit_crc_invariant {c1 c2 : Bytes} (h1 : c1.length = 8) (h2 : c2.length = 8)
    (rest : Bytes) : sameButCrc (Txn.init (c1 ++ rest)) (Txn.init (c2 ++ rest)) := by
  by_cases hlen : rest.length < 4
  · rw [txnInit_short (by simp only [List.length_append, h1]; omega),
        txnInit_short (by simp only [List.length_append, h2]; omega)]
    exact rfl
  · push_neg at hlen
    have hL : (rest.take 4).length = 4 := by
      rw [List.length_take]
      omega
    have hr1 : c1 ++ rest = c1 ++ rest.take 4 ++ rest.drop 4 := by
      rw [List.append_assoc, List.take_append_drop]
    have hr2 : c2 ++ rest = c2 ++ rest.take 4 ++ rest.drop 4 := by
      rw [List.append_assoc, List.take_append_drop]
    rw [hr1, hr2, txnInit_eq (rest.drop 4) h1 hL, txnInit_eq (rest.drop 4) h2 hL]
    by_cases hz : int32OfBytes (rest.take 4) = 0
    · rw [if_pos hz, if_pos hz]
      exact rfl
    · rw [if_neg hz, if_neg hz]
      cases hh : TxnHeader.init (rest.drop 4) with
      | error e => exact rfl
      | ok p =>
        rw [ok_bind, ok_bind]
        exact finishRecord_sameButCrc _ _ _ _ _

/-- Decidable equality of decode outcomes, so closed evaluations can be
settled by `decide`. -/
instance {e a : Type} [DecidableEq e] [DecidableEq a] : DecidableEq (Except e a) := fun x y =>
  match x, y with
  | .ok u, .ok v =>
    if h : u = v then .isTrue (by rw [h])
    else .isFalse (by intro hc; injection hc; exact h (by assumption))
  | .error u, .error v =>
    if h : u = v then .isTrue (by rw [h])
    else .isFalse (by intro hc; injection hc; exact h (by assumption))
  | .ok _, .error _ => .isFalse (by intro hc; cases hc)
  | .error _, .ok _ => .isFalse (by intro hc; cases hc)

/-! Claim theorems. -/

/-- C2: the claim states `readBool` returns `true` exactly when the
consumed byte is `0`. In the source, `_bool = s.unpack(...)` binds the
unpacked 1-TUPLE (there is no destructuring, unlike `readInt`), and a
Python tuple never compares equal to the integer `0`, so `readBool`
consumes its byte and returns `false` for EVERY byte value — including
the zero byte the claim (and the spec) say decodes to `true`. This
theorem evaluates the embedded code on every 1-byte input, exhibiting the
divergence at byte `0`. -/
theorem c2_readBool_always_false (b : Nat) (rest : Bytes) :
    readBool (b :: rest) = .ok (false, rest) := by
  unfold readBool
  have hbr : (b :: rest : Bytes) = [b] ++ rest := rfl
  rw [hbr, readUnpack_append rest (show ([b] : Bytes).length = 1 from rfl), ok_bind]
  rfl

/-- C4 counterexample: the claim says `readData` fails with `Truncated` on
a negative or overlong declared length and never returns a value in those
cases. The code's `readData` is a bare `log.read(_len)` with no `unpack`,
so a declared length `5` with only 2 bytes remaining silently returns
those 2 bytes, and a declared length `-5` returns all remaining bytes —
both succeed instead of failing. -/
theorem c4_counterexample :
    readData ([0, 0, 0, 5] ++ [1, 2]) = .ok ([1, 2], []) ∧
    readData ([255, 255, 255, 251] ++ [1, 2]) = .ok ([1, 2], []) ∧
    (Except.ok ([1, 2], ([] : Bytes)) : Except Err (Bytes × Bytes)) ≠ .error .truncated := by
  refine ⟨?_, ?_, ?_⟩ <;> decide

/-- C4 amended: `readString` reads an int32 length then exactly that many
bytes, failing with `Truncated` when the length is negative or exceeds
the remaining bytes; `readData` reads an int32 length then AT MOST that
many bytes — an overlong length silently returns just the remaining
bytes and a negative length returns all remaining bytes, in both cases
without error. Neither function ever reads past the end of the buffer. -/
theorem c4_amended (b rest : Bytes) (hb : b.length = 4) :
    (0 ≤ int32OfBytes b → (int32OfBytes b).toNat ≤ rest.length →
      readString (b ++ rest) =
        .ok (rest.take (int32OfBytes b).toNat, rest.drop (int32OfBytes b).toNat)) ∧
    (int32OfBytes b < 0 → readString (b ++ rest) = .error .truncated) ∧
    ((rest.length : Int) < int32OfBytes b → readString (b ++ rest) = .error .truncated) ∧
    (0 ≤ int32OfBytes b →
      readData (b ++ rest) =
        .ok (rest.take (int32OfBytes b).toNat, rest.drop (int32OfBytes b).toNat)) ∧
    (int32OfBytes b < 0 → readData (b ++ rest) = .ok (rest, [])) := by
  refine ⟨?_, ?_, ?_, ?_, ?_⟩
  · intro h0 hle
    unfold readString
    rw [readInt_append rest hb, ok_bind]
    dsimp only
    rw [if_neg (not_lt.mpr h0), if_pos hle]
  · intro hneg
    unfold readString
    rw [readInt_append rest hb, ok_bind]
    dsimp only
    rw [if_pos hneg]
  · intro hover
    have h0 : ¬int32OfBytes b < 0 := by omega
    have hgt : ¬(int32OfBytes b).toNat ≤ rest.length := by omega
    unfold readString
    rw [readInt_append rest hb, ok_bind]
    dsimp only
    rw [if_neg h0, if_neg hgt]
  · intro h0
    unfold readData
    rw [readInt_append rest hb, ok_bind]
    dsimp only [pyRead]
    rw [if_neg (not_lt.mpr h0)]
  · intro hneg
    unfold readData
    rw [readInt_append rest hb, ok_bind]
    dsimp only [pyRead]
    rw [if_pos hneg]

/-- C4 amended, witness: a string of declared length 1 decoded from the
two remaining bytes `[9, 9]` consumes exactly one of them. -/
theorem c4_amended_witness :
    ([0, 0, 0, 1] : Bytes).length = 4 ∧
      readString ([0, 0, 0, 1] ++ [9, 9]) = .ok ([9], [9]) :=
  ⟨by decide, by
    have h := (c4_amended [0, 0, 0, 1] [9, 9] (by decide)).1 (by decide) (by decide)
    rw [h]
    decide⟩

/-- C7 counterexample: the claim says the `TransactionHeader` decoder
consumes exactly 28 bytes and reads `time` as a signed 64-bit integer.
The unpack format is `>Q I Q Q i`, which is 32 bytes, so a 28-byte stream
fails with `Truncated` instead of decoding; and the `time` field uses the
unsigned format character `Q`, so eight `0xFF` bytes decode to
`18446744073709551615`, not to the `-1` the signed reading would give. -/
theorem c7_counterexample :
    TxnHeader.init (List.replicate 28 0) = .error .truncated ∧
    TxnHeader.init (List.replicate 20 0 ++ List.replicate 8 255 ++ [0, 0, 0, 1]) =
      .ok ({ client_id := 0, cxid := 0, zxid := 0,
             time := 18446744073709551615, type := 1 }, []) ∧
    int64OfBytes (List.replicate 8 255) = -1 := by
  refine ⟨?_, ?_, ?_⟩ <;> decide

/-- C7 amended: the `TransactionHeader` decoder consumes exactly 32 bytes,
big-endian, in this order: `clientId` unsigned 64-bit, `cxid` unsigned
32-bit, `zxid` unsigned 64-bit, `time` UNSIGNED 64-bit (format `Q`),
`opcode` signed 32-bit. -/
theorem c7_amended (b rest : Bytes) (hb : b.length = 32) :
    TxnHeader.init (b ++ rest) =
      .ok ({ client_id := beNat (b.take 8),
             cxid := beNat ((b.drop 8).take 4),
             zxid := beNat ((b.drop 12).take 8),
             time := beNat ((b.drop 20).take 8),
             type := int32OfBytes (b.drop 28) }, rest) := by
  rw [txnHeaderInit_append rest hb]
  rfl

/-- C7 amended, witness: the decoder consumes 32 bytes of a 33-byte
stream, leaving the 33rd. -/
theorem c7_amended_witness :
    (List.replicate 32 7 : Bytes).length = 32 ∧
      TxnHeader.init (List.replicate 32 7 ++ [9]) =
        .ok ({ client_id := beNat ((List.replicate 32 7 : Bytes).take 8),
               cxid := beNat (((List.replicate 32 7 : Bytes).drop 8).take 4),
               zxid := beNat (((List.replicate 32 7 : Bytes).drop 12).take 8),
               time := beNat (((List.replicate 32 7 : Bytes).drop 20).take 8),
               type := int32OfBytes ((List.replicate 32 7 : Bytes).drop 28) }, [9]) :=
  ⟨by decide, c7_amended (List.replicate 32 7) [9] (by decide)⟩

/-- C8: `resolveOpcode` succeeds exactly on the 20 opcodes of the closed
registry and `resolveErrorCode` exactly on the 21 error codes of the
closed registry; both fail (a dict `KeyError`, modelled as `none`) on
every other integer; `-101` resolves to `"nonode"` and `-999` fails. -/
theorem c8_registries :
    (∀ n : Int, (resolveOpcode n).isSome = true ↔ n ∈ opcodes.map Prod.fst) ∧
    (∀ n : Int, (resolveErrorCode n).isSome = true ↔
      n ∈ TxnError.errorcodes.map Prod.fst) ∧
    opcodes.length = 20 ∧
    TxnError.errorcodes.length = 21 ∧
    resolveErrorCode (-101) = some ("nonode") ∧
    resolveErrorCode (-999) = none ∧
    resolveOpcode (-999) = none := by
  refine ⟨fun n => lookup_isSome_iff opcodes n,
          fun n => lookup_isSome_iff TxnError.errorcodes n, ?_, ?_, ?_, ?_, ?_⟩ <;> rfl

/-- C10: a negative ACL count behaves exactly like a count of zero —
`readAcls` returns the empty list, consumes only the four count bytes,
and raises no error (the source's `xrange(count)` is empty for a negative
count). -/
theorem c10_negative_acl_count (b rest : Bytes) (hb : b.length = 4)
    (hneg : int32OfBytes b < 0) : readAcls (b ++ rest) = .ok ([], rest) := by
  unfold readAcls
  rw [readInt_append rest hb, ok_bind]
  dsimp only
  rw [Int.toNat_of_nonpos (le_of_lt hneg)]
  rfl

/-- C10 witness: the count bytes decoding to `-1` yield an empty ACL list
with the following bytes untouched. -/
theorem c10_negative_acl_count_witness :
    int32OfBytes [255, 255, 255, 255] < 0 ∧
      readAcls ([255, 255, 255, 255] ++ [7, 8, 9]) = .ok ([], [7, 8, 9]) :=
  ⟨by decide, c10_negative_acl_count [255, 255, 255, 255] [7, 8, 9] rfl (by decide)⟩

/-- C3: the record decoder reads the int64 checksum and the int32 length
first; a length of exactly zero raises the `EOS` terminal condition —
distinct from every error kind — whatever bytes follow (none of them is
read), and any nonzero length proceeds directly to decoding a
`TransactionHeader` from the bytes after the frame. -/
theorem c3_zero_length_is_eos (c L rest : Bytes) (hc : c.length = 8) (hL : L.length = 4) :
    (int32OfBytes L = 0 → Txn.init (c ++ L ++ rest) = .error .eos) ∧
    (int32OfBytes L ≠ 0 →
      Txn.init (c ++ L ++ rest) = (TxnHeader.init rest) >>= fun hr =>
        finishRecord (int64OfBytes c) (int32OfBytes L) hr.1 (dispatch hr.1.type hr.2)) ∧
    Err.eos ≠ Err.truncated ∧
    Err.eos ≠ Err.invalidHeader ∧
    (∀ t : Int, Err.eos ≠ Err.unknownType t) := by
  refine ⟨?_, ?_, by decide, by decide, fun t => by simp⟩
  · intro hz
    rw [txnInit_eq rest hc hL, if_pos hz]
  · intro hnz
    rw [txnInit_eq rest hc hL, if_neg hnz]

/-- C3 witness: a zero-length frame followed by arbitrary junk is `EOS`. -/
theorem c3_zero_length_is_eos_witness :
    (List.replicate 8 0 : Bytes).length = 8 ∧
      Txn.init (List.replicate 8 0 ++ [0, 0, 0, 0] ++ [1, 2, 3]) = .error .eos :=
  ⟨by decide,
    (c3_zero_length_is_eos (List.replicate 8 0) [0, 0, 0, 0] [1, 2, 3]
      (by decide) (by decide)).1 (by decide)⟩

/-- C5: the log file header decoder reads `magic:i32`, `version:i32`,
`dbid:i64` in that order (big-endian); `isvalid` holds exactly when the
magic equals `0x5A4B4C47`, the four ASCII bytes `"ZKLG"` read as one
big-endian 32-bit integer; and the driver rejects a file whose magic
differs, before any transaction record decode is attempted. -/
theorem c5_log_file_header (b rest : Bytes) (fuel : Nat) (hb : b.length = 16) :
    LogFileHeader.init (b ++ rest) =
      .ok ({ magic := int32OfBytes (b.take 4),
             version := int32OfBytes ((b.drop 4).take 4),
             dbid := int64OfBytes (b.drop 8) }, rest) ∧
    LogFileHeader.MAGIC = 0x5A4B4C47 ∧
    (∀ h : LogFileHeader, h.isvalid = true ↔ h.magic = 0x5A4B4C47) ∧
    (int32OfBytes (b.take 4) ≠ 0x5A4B4C47 →
      runFile fuel (b ++ rest) = .error .invalidHeader) := by
  have hinit : LogFileHeader.init (b ++ rest) =
      .ok ({ magic := int32OfBytes (b.take 4),
             version := int32OfBytes ((b.drop 4).take 4),
             dbid := int64OfBytes (b.drop 8) }, rest) := by
    unfold LogFileHeader.init
    rw [readUnpack_append rest hb, ok_bind]
  have hmagic : LogFileHeader.MAGIC = 0x5A4B4C47 := by decide
  have hiv : ∀ h : LogFileHeader, h.isvalid = true ↔ h.magic = 0x5A4B4C47 := by
    intro h
    simp [LogFileHeader.isvalid, hmagic]
  refine ⟨hinit, hmagic, hiv, ?_⟩
  intro hmag
  unfold runFile
  rw [hinit, ok_bind]
  dsimp only
  have hnv : ¬(({ magic := int32OfBytes (b.take 4),
                  version := int32OfBytes ((b.drop 4).take 4),
                  dbid := int64OfBytes (b.drop 8) } : LogFileHeader).isvalid = true) := by
    rw [hiv]
    exact hmag
  rw [if_neg hnv]

/-- C5 witness: an all-zero 16-byte header is rejected by the driver. -/
theorem c5_log_file_header_witness :
    (List.replicate 16 0 : Bytes).length = 16 ∧
      runFile 3 (List.replicate 16 0 ++ [1, 2]) = .error .invalidHeader :=
  ⟨by decide,
    (c5_log_file_header (List.replicate 16 0) [1, 2] 3 (by decide)).2.2.2 (by decide)⟩

/-- C6: after a nonzero-length frame and the 32-byte header, the decoder
dispatches on the opcode: each of the seven opcodes with a payload
decoder runs exactly the correspondingly named decoder on the bytes after
the header, and every other opcode fails the whole record decode with
`UnknownType` carrying that opcode, independently of whatever bytes
follow the header (no payload byte is consumed or examined). -/
theorem c6_opcode_dispatch (c L hb rest : Bytes) (hc : c.length = 8) (hL : L.length = 4)
    (hh : hb.length = 32) (hnz : int32OfBytes L ≠ 0) :
    ((headerOfBytes hb).type ∉
        ([CREATE, DELETE, SETDATA, SETACL, SESSIONCREATE, SESSIONCLOSE, ERROR] : List Int) →
      Txn.init (c ++ L ++ hb ++ rest) = .error (.unknownType (headerOfBytes hb).type)) ∧
    ((headerOfBytes hb).type = CREATE →
      Txn.init (c ++ L ++ hb ++ rest) =
        finishRecord (int64OfBytes c) (int32OfBytes L) (headerOfBytes hb)
          (TxnCreate.init rest)) ∧
    ((headerOfBytes hb).type = DELETE →
      Txn.init (c ++ L ++ hb ++ rest) =
        finishRecord (int64OfBytes c) (int32OfBytes L) (headerOfBytes hb)
          (TxnDelete.init rest)) ∧
    ((headerOfBytes hb).type = SETDATA →
      Txn.init (c ++ L ++ hb ++ rest) =
        finishRecord (int64OfBytes c) (int32OfBytes L) (headerOfBytes hb)
          (TxnSetData.init rest)) ∧
    ((headerOfBytes hb).type = SETACL →
      Txn.init (c ++ L ++ hb ++ rest) =
        finishRecord (int64OfBytes c) (int32OfBytes L) (headerOfBytes hb)
          (TxnSetAcl.init rest)) ∧
    ((headerOfBytes hb).type = SESSIONCREATE →
      Txn.init (c ++ L ++ hb ++ rest) =
        finishRecord (int64OfBytes c) (int32OfBytes L) (headerOfBytes hb)
          (TxnSessionCreate.init rest)) ∧
    ((headerOfBytes hb).type = SESSIONCLOSE →
      Txn.init (c ++ L ++ hb ++ rest) =
        finishRecord (int64OfBytes c) (int32OfBytes L) (headerOfBytes hb)
          (TxnSessionClose.init rest)) ∧
    ((headerOfBytes hb).type = ERROR →
      Txn.init (c ++ L ++ hb ++ rest) =
        finishRecord (int64OfBytes c) (int32OfBytes L) (headerOfBytes hb)
          (TxnError.init rest)) := by
  have hrec := txnInit_record rest hc hL hh hnz
  refine ⟨?_, ?_, ?_, ?_, ?_, ?_, ?_, ?_⟩
  · intro hmem
    rw [hrec, dispatch_unknown rest hmem]
    rfl
  · intro hop
    rw [hrec]
    unfold dispatch
    rw [if_pos hop]
  · intro hop
    rw [hrec]
    unfold dispatch
    rw [if_neg (by rw [hop]; decide), if_pos hop]
  · intro hop
    rw [hrec]
    unfold dispatch
    rw [if_neg (by rw [hop]; decide), if_neg (by rw [hop]; decide), if_pos hop]
  · intro hop
    rw [hrec]
    unfold dispatch
    rw [if_neg (by rw [hop]; decide), if_neg (by rw [hop]; decide),
        if_neg (by rw [hop]; decide), if_pos hop]
  · intro hop
    rw [hrec]
    unfold dispatch
    rw [if_neg (by rw [hop]; decide), if_neg (by rw [hop]; decide),
        if_neg (by rw [hop]; decide), if_neg (by rw [hop]; decide), if_pos hop]
  · intro hop
    rw [hrec]
    unfold dispatch
    rw [if_neg (by rw [hop]; decide), if_neg (by rw [hop]; decide),
        if_neg (by rw [hop]; decide), if_neg (by rw [hop]; decide),
        if_neg (by rw [hop]; decide), if_pos hop]
  · intro hop
    rw [hrec]
    unfold dispatch
    rw [if_neg (by rw [hop]; decide), if_neg (by rw [hop]; decide),
        if_neg (by rw [hop]; decide), if_neg (by rw [hop]; decide),
        if_neg (by rw [hop]; decide), if_neg (by rw [hop]; decide), if_pos hop]

/-- C6 witness: opcode `3` (`exists`, which has no payload decoder) fails
with `UnknownType 3` without touching the bytes after the header. -/
theorem c6_opcode_dispatch_witness :
    int32OfBytes [0, 0, 0, 1] ≠ 0 ∧
      Txn.init (List.replicate 8 0 ++ [0, 0, 0, 1] ++
          (List.replicate 28 0 ++ [0, 0, 0, 3]) ++ [4, 5, 6]) =
        .error (.unknownType 3) := by
  refine ⟨by decide, ?_⟩
  have h := (c6_opcode_dispatch (List.replicate 8 0) [0, 0, 0, 1]
      (List.replicate 28 0 ++ [0, 0, 0, 3]) [4, 5, 6]
      (by decide) (by decide) (by decide) (by decide)).1 (by decide)
  rw [h]
  decide

theorem pyRead_one_cons (d : Nat) (tail : Bytes) : pyRead 1 (d :: tail) = ([d], tail) := by
  unfold pyRead
  rw [if_neg (by decide)]
  rfl

/-- C9: the stored checksum is never verified and the trailing delimiter
byte's value is never checked. First conjunct: two streams that differ
only in the 8 checksum bytes of the frame decode to the same outcome —
the same terminal condition, or successes with identical length, header,
payload fields and unconsumed tail (only the stored `crc` differs).
Second conjunct: when the header-plus-payload segment decodes exactly,
the whole record decode succeeds with identical header and payload fields
for ANY values of the checksum bytes and of the single trailing delimiter
byte, consuming the delimiter and leaving the same tail. -/
theorem c9_checksum_delimiter_ignored (c1 c2 : Bytes) (h1 : c1.length = 8)
    (h2 : c2.length = 8) :
    (∀ rest : Bytes, sameButCrc (Txn.init (c1 ++ rest)) (Txn.init (c2 ++ rest))) ∧
    (∀ (L mid tail : Bytes) (d1 d2 : Nat) (h : TxnHeader) (e : TxnEntry),
      L.length = 4 → int32OfBytes L ≠ 0 → decodeBody mid = .ok ((h, e), []) →
      Txn.init (c1 ++ L ++ mid ++ d1 :: tail) =
        .ok ({ crc := int64OfBytes c1, txn_len := int32OfBytes L,
               header := h, entry := e }, tail) ∧
      Txn.init (c2 ++ L ++ mid ++ d2 :: tail) =
        .ok ({ crc := int64OfBytes c2, txn_len := int32OfBytes L,
               header := h, entry := e }, tail)) := by
  constructor
  · exact fun rest => txnInit_crc_invariant h1 h2 rest
  · intro L mid tail d1 d2 h e hL hnz hbody
    have key : ∀ (c : Bytes) (d : Nat), c.length = 8 →
        Txn.init (c ++ L ++ mid ++ d :: tail) =
          .ok ({ crc := int64OfBytes c, txn_len := int32OfBytes L,
                 header := h, entry := e }, tail) := by
      intro c d hc
      have hassoc : c ++ L ++ mid ++ d :: tail = c ++ L ++ (mid ++ d :: tail) := by
        rw [List.append_assoc (c ++ L)]
      rw [hassoc, txnInit_eq (mid ++ d :: tail) hc hL, if_neg hnz,
          txnTail_of_decodeBody (decodeBody_ext hbody)]
      simp only [List.nil_append, pyRead_one_cons]
    exact ⟨key c1 d1 h1, key c2 d2 h2⟩

/-- C9 witness: a SessionClose record decoded twice, once with all-zero
checksum bytes and delimiter `77` — same header, payload and tail. -/
theorem c9_checksum_delimiter_ignored_witness :
    int32OfBytes [0, 0, 0, 1] ≠ 0 ∧
      Txn.init (List.replicate 8 0 ++ [0, 0, 0, 1] ++
          (List.replicate 28 0 ++ [255, 255, 255, 245]) ++ [77]) =
        .ok ({ crc := int64OfBytes (List.replicate 8 0), txn_len := int32OfBytes [0, 0, 0, 1],
               header := { client_id := 0, cxid := 0, zxid := 0, time := 0, type := -11 },
               entry := .sessionClose }, []) := by
  refine ⟨by decide, ?_⟩
  exact ((c9_checksum_delimiter_ignored (List.replicate 8 0) (List.replicate 8 9)
      (by decide) (by decide)).2 [0, 0, 0, 1] (List.replicate 28 0 ++ [255, 255, 255, 245]) []
      77 77 { client_id := 0, cxid := 0, zxid := 0, time := 0, type := -11 } .sessionClose
      (by decide) (by decide) (by decide)).1

/-- C1: the structural half of the claim (well-formed records then a
zero-length terminator decode to exactly those records in order, then
`EOS`) is exhibited here on a concrete log, but the round-trip half is
FALSE, through the same `readBool` defect recorded with C2: encoding one
Create record whose `ephemeral` field is `true` (spec encoding of `true`:
a zero byte) and decoding the bytes back yields exactly one record, in
order, then `EOS` — but with `ephemeral` decoded as `false`, so the field
values are not reproduced bit-for-bit. -/
theorem c1_roundtrip_broken_by_readBool :
    parseAll 2 (encTxn 99 { client_id := 3, cxid := 1, zxid := 2, time := 1000, type := CREATE }
        (.create [47, 97] [120] [] true) 66 ++ endFrame 0) =
      some ([{ crc := 99, txn_len := 49,
               header := { client_id := 3, cxid := 1, zxid := 2, time := 1000, type := CREATE },
               entry := .create [47, 97] [120] [] false }], .eos) ∧
    (TxnEntry.create [47, 97] [120] [] false ≠ .create [47, 97] [120] [] true) := by
  refine ⟨?_, ?_⟩ <;> decide
